import Mathlib

/-!
Verification of the airtable client library (src/lib.rs): a shallow
embedding of the record capability, the wire envelope, the query builder,
the paginator state machine and the create/update operations, together
with theorems settling the specification's claims about them.

The HTTP transport is modelled as an environment: a list of responses the
paginator consumes in order (`none` models a transport send failure or a
body that fails to decode as a page), and a log of the requests issued.
-/

namespace Airtable

/-- The fixed API root, `const URL` in the source. -/
def URL : String := "https://api.airtable.com/v0"

/-- The `Record` trait: the capability a caller-supplied record type gives
the library to read and assign the opaque string identifier. -/
class Record (T : Type) where
  set_id : T → String → T
  id : T → String

/-- JSON values, the target of the codec used for request bodies. -/
inductive Json where
  | null : Json
  | bool : Bool → Json
  | num : Int → Json
  | str : String → Json
  | arr : List Json → Json
  | obj : List (String × Json) → Json

/-- Top-level member keys of a JSON object (empty for non-objects). -/
def Json.topKeys : Json → List String
  | .obj members => members.map Prod.fst
  | _ => []

/-- Serialization capability for the caller-supplied `fields` type. -/
class Serialize (T : Type) where
  serialize : T → Json

/-- The wire envelope `SRecord<T> { id, fields }`. -/
structure SRecord (T : Type) where
  id : String
  fields : T
deriving DecidableEq

/-- Serde serialization of `SRecord`: the `id` member carries
`#[serde(default, skip_serializing)]`, so serialization emits only the
`fields` member, never `id`. -/
def SRecord.serialize {T : Type} [Serialize T] (r : SRecord T) : Json :=
  Json.obj [("fields", Serialize.serialize r.fields)]

/-- One decoded response page, `RecordPage<T> { records, offset }`; a
missing `offset` member deserializes to `""` via `#[serde(default)]`. -/
structure RecordPage (T : Type) where
  records : List (SRecord T)
  offset : String
deriving DecidableEq

/-- Sort direction of one sort clause. -/
inductive SortDirection where
  | Descending : SortDirection
  | Ascending : SortDirection
deriving DecidableEq

/-- The `ToString` impl for `SortDirection`. -/
def SortDirection.to_string : SortDirection → String
  | .Descending => "desc"
  | .Ascending => "asc"

/-- The query specification builder `QueryBuilder` (its borrowed `base`
reference is held separately in this model). -/
structure QueryBuilder where
  fields : Option (List String)
  view : Option String
  formula : Option String
  sort : Option (List (String × SortDirection))
deriving DecidableEq

/-- The builder method `QueryBuilder::view`: overwrites the view name. -/
def QueryBuilder.viewCall (q : QueryBuilder) (view : String) : QueryBuilder :=
  { q with view := some view }

/-- The builder method `QueryBuilder::formula`: overwrites the formula. -/
def QueryBuilder.formulaCall (q : QueryBuilder) (formula : String) : QueryBuilder :=
  { q with formula := some formula }

/-- The builder method `QueryBuilder::sort`: starts the sort list at the
first call and pushes onto its end afterwards. -/
def QueryBuilder.sortCall (q : QueryBuilder) (field : String)
    (direction : SortDirection) : QueryBuilder :=
  match q.sort with
  | none => { q with sort := some [(field, direction)] }
  | some l => { q with sort := some (l ++ [(field, direction)]) }

/-- The accumulated sort clauses of a specification, in order. -/
def QueryBuilder.sortList (q : QueryBuilder) : List (String × SortDirection) :=
  q.sort.getD []

/-- The base handle: table coordinates (the configured HTTP client is the
modelled transport). -/
structure Base where
  api_key : String
  app_key : String
  table : String
deriving DecidableEq

/-- `Base::query`: a fresh, empty query specification. -/
def Base.query (_b : Base) : QueryBuilder :=
  { fields := none, view := none, formula := none, sort := none }

/-- The `sort[i][field]` / `sort[i][direction]` query pairs for the sort
clauses, indexed in list order. -/
def sortPairs (l : List (String × SortDirection)) : List (String × String) :=
  (l.enum.map (fun p =>
    [("sort[" ++ Nat.repr p.1 ++ "][field]", p.2.1),
     ("sort[" ++ Nat.repr p.1 ++ "][direction]", p.2.2.to_string)])).flatten

/-- The query pairs appended to the request URL by `Paginator::next`, in
append order: `offset` always, then `view` and `filterByFormula` when
set, then the sort clause pairs. -/
def requestPairs (qb : QueryBuilder) (offset : String) : List (String × String) :=
  [("offset", offset)]
    ++ (match qb.view with | some v => [("view", v)] | none => [])
    ++ (match qb.formula with | some f => [("filterByFormula", f)] | none => [])
    ++ (match qb.sort with | some l => sortPairs l | none => [])

/-- One GET request issued by the paginator: the table path and the query
pairs in append order. -/
structure GetRequest where
  path : String
  query : List (String × String)
deriving DecidableEq

/-- The URL built by `Paginator::next` before sending. -/
def buildRequest (b : Base) (qb : QueryBuilder) (offset : String) : GetRequest :=
  { path := URL ++ "/" ++ b.app_key ++ "/" ++ b.table,
    query := requestPairs qb offset }

/-- The paginator: cursor state (`offset`, the in-memory `window` standing
for the `iterator` field, the moved-in `query_builder`) plus the modelled
transport environment (`remote` responses still to be served, `requests`
log of issued GETs). -/
structure Paginator (T : Type) where
  base : Base
  offset : Option String
  window : List T
  query_builder : QueryBuilder
  remote : List (Option (RecordPage T))
  requests : List GetRequest

/-- Decoding of one wire envelope inside `Paginator::next`: take `fields`
and assign the envelope's `id` through the record capability. -/
def decodeRecord {T : Type} [Record T] (r : SRecord T) : T :=
  Record.set_id r.fields r.id

/-- One call to `Paginator::next`: drain the window first; end the
sequence when no offset is pending; otherwise build the URL, issue the
GET, swallow transport/decode failures as end-of-sequence, update the
pending offset from the page, replace the window with the decoded
records and return the first of them. -/
def pagNext {T : Type} [Record T] (p : Paginator T) : Option T × Paginator T :=
  match p.window with
  | t :: rest => (some t, { p with window := rest })
  | [] =>
    match p.offset with
    | none => (none, p)
    | some off =>
      let req := buildRequest p.base p.query_builder off
      match p.remote with
      | [] => (none, { p with requests := p.requests ++ [req] })
      | resp :: remoteRest =>
        match resp with
        | none =>
          (none, { p with remote := remoteRest, requests := p.requests ++ [req] })
        | some page =>
          let newOffset : Option String :=
            if page.offset = "" then none else some page.offset
          match page.records.map decodeRecord with
          | [] =>
            (none, { p with offset := newOffset, window := [],
                            remote := remoteRest, requests := p.requests ++ [req] })
          | t :: ts =>
            (some t, { p with offset := newOffset, window := ts,
                              remote := remoteRest, requests := p.requests ++ [req] })

/-- `QueryBuilder::into_iter`: a fresh paginator with the sentinel offset
`Some("")`, an empty window and an empty request log, reading from the
given remote responses. -/
def mkPaginator {T : Type} (b : Base) (qb : QueryBuilder)
    (remote : List (Option (RecordPage T))) : Paginator T :=
  { base := b, offset := some "", window := [], query_builder := qb,
    remote := remote, requests := [] }

/-- Fuelled iteration in the style of an `Iterator` consumer: call
`pagNext` repeatedly, collecting yielded items, and stop at the first
end-of-sequence signal (or when fuel runs out). -/
def runPag {T : Type} [Record T] : Nat → Paginator T → List T × Paginator T
  | 0, p => ([], p)
  | fuel + 1, p =>
    match pagNext p with
    | (none, p1) => ([], p1)
    | (some t, p1) =>
      let r := runPag fuel p1
      (t :: r.1, r.2)

/-- HTTP method of a write request. -/
inductive Method where
  | post : Method
  | patch : Method
deriving DecidableEq

/-- One write request issued by create/update. -/
structure WriteRequest where
  method : Method
  url : String
  body : Json

/-- Transport outcome of one write request: a response with a status
code, or a failure of `send()` itself. -/
inductive HttpResponse where
  | ok : Nat → HttpResponse
  | transportErr : HttpResponse
deriving DecidableEq

/-- The failure value surfaced to the caller of create/update. -/
inductive ApiError where
  | transport : ApiError
  | status : Nat → ApiError
deriving DecidableEq

/-- The reqwest `error_for_status` check: a response is turned into an
error exactly when its status is a client error (4xx) or a server error
(5xx). -/
def error_for_status (status : Nat) : Except ApiError Unit :=
  if 400 ≤ status ∧ status ≤ 599 then Except.error (ApiError.status status)
  else Except.ok ()

/-- Result of `send()?.error_for_status()?` for one write request. -/
def sendResult (resp : HttpResponse) : Except ApiError Unit :=
  match resp with
  | .transportErr => Except.error ApiError.transport
  | .ok s => error_for_status s

/-- The POST request built by `Base::create`: body is the serialized
envelope with an empty identifier. -/
def createRequest {T : Type} [Serialize T] (b : Base) (t : T) : WriteRequest :=
  { method := Method.post,
    url := URL ++ "/" ++ b.app_key ++ "/" ++ b.table,
    body := SRecord.serialize { id := "", fields := t } }

/-- The PATCH request built by `Base::update`: the record's identifier is
interpolated into the URL path and stored in the envelope before
serialization. -/
def updateRequest {T : Type} [Serialize T] [Record T] (b : Base) (t : T) :
    WriteRequest :=
  { method := Method.patch,
    url := URL ++ "/" ++ b.app_key ++ "/" ++ b.table ++ "/" ++ Record.id t,
    body := SRecord.serialize { id := Record.id t, fields := t } }

/-- `Base::create`: issue exactly one POST and surface the transport
outcome to the caller. -/
def Base.create {T : Type} [Serialize T] [Record T] (b : Base) (t : T)
    (resp : HttpResponse) : List WriteRequest × Except ApiError Unit :=
  ([createRequest b t], sendResult resp)

/-- `Base::update`: issue exactly one PATCH and surface the transport
outcome to the caller. -/
def Base.update {T : Type} [Serialize T] [Record T] (b : Base) (t : T)
    (resp : HttpResponse) : List WriteRequest × Except ApiError Unit :=
  ([updateRequest b t], sendResult resp)

/-- A concrete record type in the style of the crate's documented
example, used to instantiate the generic theorems. -/
structure Word where
  id : String
  word : String
deriving DecidableEq

instance : Record Word where
  set_id w s := { w with id := s }
  id w := w.id

instance : Serialize Word where
  serialize w := Json.obj [("Word", Json.str w.word)]

/-- A concrete base handle for witnesses. -/
def bW : Base := { api_key := "key", app_key := "app", table := "Words" }

/-- The concrete finalized specification of the parameter-propagation
claim: `view("V")`, `formula("F")`, `sort("A", Descending)`,
`sort("B", Ascending)`. -/
def qbVFAB : QueryBuilder :=
  (((bW.query.viewCall "V").formulaCall "F").sortCall
      "A" SortDirection.Descending).sortCall "B" SortDirection.Ascending

/-- A whole chain of `sort` calls applied in order to a builder. -/
def applySorts (q : QueryBuilder) (calls : List (String × SortDirection)) :
    QueryBuilder :=
  calls.foldl (fun acc c => acc.sortCall c.1 c.2) q

/-- The full decoded sequence one `pagNext` outcome stands for: the
yielded item (when any) followed by the records left in the window. -/
def yieldedWindow {T : Type} (out : Option T × Paginator T) : List T :=
  match out.1 with
  | some t => t :: out.2.window
  | none => out.2.window

/-- A concrete record with a non-empty identifier. -/
def wordCex : Word := { id := "rec123", word := "hello" }

/-- A concrete wire envelope for witnesses. -/
def srW : SRecord Word := { id := "rec1", fields := { id := "", word := "w1" } }

/-- A one-record page with a continuation offset. -/
def pgOneW : RecordPage Word := { records := [srW], offset := "o1" }

/-- A paginator about to fetch against an empty remote: the send fails. -/
def pC3w : Paginator Word :=
  { base := bW, offset := some "", window := [], query_builder := bW.query,
    remote := [], requests := [] }

/-- A paginator with a buffered, unconsumed window item. -/
def pW6 : Paginator Word :=
  { base := bW, offset := some "x", window := [wordCex],
    query_builder := bW.query, remote := [], requests := [] }

/-- A fresh paginator over a single one-record remote page. -/
def pW7 : Paginator Word := mkPaginator bW bW.query [some pgOneW]

/-- An empty page that still carries a continuation offset. -/
def pgEmptyO : RecordPage Word := { records := [], offset := "o1" }

/-- A fresh paginator whose first page is empty but not last. -/
def pW9 : Paginator Word := mkPaginator bW bW.query [some pgEmptyO, some pgOneW]

/-- A second concrete wire envelope. -/
def srW2 : SRecord Word := { id := "rec2", fields := { id := "", word := "w2" } }

/-- A third concrete wire envelope. -/
def srW3 : SRecord Word := { id := "rec3", fields := { id := "", word := "w3" } }

/-- A one-record middle page with a continuation offset. -/
def pgW2 : RecordPage Word := { records := [srW2], offset := "o2" }

/-- A one-record terminal page (empty offset). -/
def pgW3 : RecordPage Word := { records := [srW3], offset := "" }

/-- A terminal page with no records at all. -/
def pgLastW : RecordPage Word := { records := [], offset := "" }

/-! Helper lemmas. -/

theorem sortCall_sortList (q : QueryBuilder) (f : String) (d : SortDirection) :
    (q.sortCall f d).sortList = q.sortList ++ [(f, d)] := by
  cases h : q.sort <;>
    simp [QueryBuilder.sortCall, QueryBuilder.sortList, h]

/-- One-step unfolding of the fuelled iteration. -/
theorem runPag_succ {T : Type} [Record T] (fuel : Nat) (p : Paginator T) :
    runPag (fuel + 1) p
      = (match pagNext p with
         | (none, p1) => ([], p1)
         | (some t, p1) => (t :: (runPag fuel p1).1, (runPag fuel p1).2)) :=
  rfl

/-- Buffered window items are yielded one per call before anything else
happens; fuel beyond the window length continues on the emptied window. -/
theorem runPag_window_drain {T : Type} [Record T] (w : List T) (n : Nat)
    (b : Base) (off : Option String) (qb : QueryBuilder)
    (rem : List (Option (RecordPage T))) (reqs : List GetRequest) :
    runPag (n + w.length) ⟨b, off, w, qb, rem, reqs⟩
      = (w ++ (runPag n ⟨b, off, [], qb, rem, reqs⟩).1,
         (runPag n ⟨b, off, [], qb, rem, reqs⟩).2) := by
  induction w with
  | nil => simp
  | cons t ts ih =>
    have hfuel : n + (t :: ts).length = (n + ts.length) + 1 := by
      simp only [List.length_cons]
      omega
    have hstep : pagNext (⟨b, off, t :: ts, qb, rem, reqs⟩ : Paginator T)
        = (some t, ⟨b, off, ts, qb, rem, reqs⟩) := rfl
    rw [hfuel, runPag_succ, hstep]
    dsimp only
    rw [ih]
    simp

/-- A paginator with no pending offset and an empty window is terminal:
any amount of fuel yields nothing and leaves the state unchanged. -/
theorem runPag_exhausted {T : Type} [Record T] (n : Nat) (b : Base)
    (qb : QueryBuilder) (rem : List (Option (RecordPage T)))
    (reqs : List GetRequest) :
    runPag n ⟨b, none, [], qb, rem, reqs⟩
      = ([], ⟨b, none, [], qb, rem, reqs⟩) := by
  cases n with
  | zero => rfl
  | succ m => rfl

/-- Fetching a non-empty page yields all of its decoded records in order,
logs exactly one request built from the pending offset, replaces the
pending offset by the page's, and continues with the remaining fuel. -/
theorem runPag_page {T : Type} [Record T] (r : SRecord T)
    (rs : List (SRecord T)) (poff : String)
    (rest : List (Option (RecordPage T))) (b : Base) (off : String)
    (qb : QueryBuilder) (reqs : List GetRequest) (n : Nat) :
    runPag ((r :: rs).length + (n + 1))
        ⟨b, some off, [], qb, some ⟨r :: rs, poff⟩ :: rest, reqs⟩
      = ((r :: rs).map decodeRecord
           ++ (runPag (n + 1)
                ⟨b, (if poff = "" then none else some poff), [], qb, rest,
                 reqs ++ [buildRequest b qb off]⟩).1,
         (runPag (n + 1)
                ⟨b, (if poff = "" then none else some poff), [], qb, rest,
                 reqs ++ [buildRequest b qb off]⟩).2) := by
  have hstep :
      pagNext (⟨b, some off, [], qb, some ⟨r :: rs, poff⟩ :: rest, reqs⟩ :
        Paginator T)
      = (some (decodeRecord r),
         ⟨b, (if poff = "" then none else some poff), rs.map decodeRecord,
          qb, rest, reqs ++ [buildRequest b qb off]⟩) := rfl
  have hfuel : (r :: rs).length + (n + 1)
      = ((n + 1) + (rs.map (decodeRecord : SRecord T → T)).length) + 1 := by
    simp only [List.length_cons, List.length_map]
    omega
  rw [hfuel, runPag_succ, hstep]
  dsimp only
  rw [runPag_window_drain]
  simp

/-- Fetching a terminal page (empty offset, any record count) yields its
decoded records, clears the pending offset and stops. -/
theorem runPag_last_page {T : Type} [Record T] (recs : List (SRecord T))
    (b : Base) (off : String) (qb : QueryBuilder)
    (rem : List (Option (RecordPage T))) (reqs : List GetRequest) :
    runPag (recs.length + 1) ⟨b, some off, [], qb, some ⟨recs, ""⟩ :: rem, reqs⟩
      = (recs.map decodeRecord,
         ⟨b, none, [], qb, rem, reqs ++ [buildRequest b qb off]⟩) := by
  rcases recs with _ | ⟨r, rs⟩
  · rfl
  · rw [show (r :: rs : List (SRecord T)).length + 1
          = (r :: rs : List (SRecord T)).length + (0 + 1) from rfl]
    rw [runPag_page r rs "" rem b off qb reqs 0]
    rw [if_pos rfl]
    rw [runPag_exhausted]
    simp

/-- One `pagNext` call leaves the base and the specification untouched
and appends only requests built from them. -/
theorem pagNext_env {T : Type} [Record T] (p : Paginator T) :
    (pagNext p).2.base = p.base
    ∧ (pagNext p).2.query_builder = p.query_builder
    ∧ ∃ os : List String,
        (pagNext p).2.requests
          = p.requests ++ os.map (buildRequest p.base p.query_builder) := by
  rcases hw : p.window with _ | ⟨t, rest⟩
  · rcases ho : p.offset with _ | off
    · exact ⟨by simp [pagNext, hw, ho], by simp [pagNext, hw, ho],
        [], by simp [pagNext, hw, ho]⟩
    · rcases hr : p.remote with _ | ⟨resp, rrest⟩
      · exact ⟨by simp [pagNext, hw, ho, hr], by simp [pagNext, hw, ho, hr],
          [off], by simp [pagNext, hw, ho, hr]⟩
      · rcases resp with _ | page
        · exact ⟨by simp [pagNext, hw, ho, hr],
            by simp [pagNext, hw, ho, hr],
            [off], by simp [pagNext, hw, ho, hr]⟩
        · rcases hrec : page.records with _ | ⟨r, rs⟩
          · exact ⟨by simp [pagNext, hw, ho, hr, hrec],
              by simp [pagNext, hw, ho, hr, hrec],
              [off], by simp [pagNext, hw, ho, hr, hrec]⟩
          · exact ⟨by simp [pagNext, hw, ho, hr, hrec],
              by simp [pagNext, hw, ho, hr, hrec],
              [off], by simp [pagNext, hw, ho, hr, hrec]⟩
  · exact ⟨by simp [pagNext, hw], by simp [pagNext, hw],
      [], by simp [pagNext, hw]⟩

/-- Any fuelled run leaves the base and the specification untouched and
only appends requests built from them. -/
theorem runPag_env {T : Type} [Record T] (fuel : Nat) (p : Paginator T) :
    (runPag fuel p).2.base = p.base
    ∧ (runPag fuel p).2.query_builder = p.query_builder
    ∧ ∃ os : List String,
        (runPag fuel p).2.requests
          = p.requests ++ os.map (buildRequest p.base p.query_builder) := by
  induction fuel generalizing p with
  | zero => exact ⟨rfl, rfl, [], by simp [runPag]⟩
  | succ n ih =>
    obtain ⟨hb, hq, os1, hreq⟩ := pagNext_env p
    rcases hstep : pagNext p with ⟨r, p1⟩
    rw [hstep] at hb hq hreq
    dsimp only at hb hq hreq
    cases r with
    | none =>
      have hrun : runPag (n + 1) p = ([], p1) := by
        rw [runPag_succ, hstep]
      rw [hrun]
      exact ⟨hb, hq, os1, hreq⟩
    | some t =>
      have hrun : runPag (n + 1) p
          = (t :: (runPag n p1).1, (runPag n p1).2) := by
        rw [runPag_succ, hstep]
      rw [hrun]
      obtain ⟨hb2, hq2, os2, hreq2⟩ := ih p1
      refine ⟨by rw [hb2, hb], by rw [hq2, hq], os1 ++ os2, ?_⟩
      dsimp only
      rw [hreq2, hreq, hb, hq]
      simp [List.map_append, List.append_assoc]

/-! Claim theorems. -/

/-- C5: every `sort(field, direction)` call appends its pair to the end of
the accumulated sort list, so a chain of calls produces exactly the pairs
of all calls in call order, never removing or reordering earlier
entries. -/
theorem C5_sort_appends (q : QueryBuilder)
    (calls : List (String × SortDirection)) :
    (applySorts q calls).sortList = q.sortList ++ calls := by
  induction calls generalizing q with
  | nil => simp [applySorts]
  | cons c cs ih =>
    have h1 : applySorts q (c :: cs) = applySorts (q.sortCall c.1 c.2) cs := rfl
    rw [h1, ih, sortCall_sortList]
    simp

/-- C10: repeated `view` calls overwrite the previous view and repeated
`formula` calls overwrite the previous formula, so the resulting
specification — and hence any request URL built from it — reflects only
the last value. -/
theorem C10_view_formula_overwrite (q : QueryBuilder) (a b : String) :
    (q.viewCall a).viewCall b = q.viewCall b
    ∧ (q.formulaCall a).formulaCall b = q.formulaCall b :=
  ⟨rfl, rfl⟩

/-- C3: when the window is empty and an offset is pending, a transport
send failure (no response) or a body that fails to decode as a page makes
`pagNext` return `none` — the same value as normal exhaustion, with no
error surfaced. -/
theorem C3_errors_swallowed {T : Type} [Record T] (p : Paginator T)
    (off : String) (hw : p.window = []) (ho : p.offset = some off)
    (hfail : p.remote = [] ∨ ∃ rest, p.remote = none :: rest) :
    (pagNext p).1 = none := by
  rcases hfail with h | ⟨rest, h⟩ <;> simp [pagNext, hw, ho, h]

theorem C3_errors_swallowed_witness : (pagNext pC3w).1 = none :=
  C3_errors_swallowed pC3w "" rfl rfl (Or.inl rfl)

/-- C1 is false on the code: `SRecord.id` carries
`#[serde(skip_serializing)]`, so the PATCH body built by `update` for a
record with the non-empty identifier "rec123" contains no `id` member at
all. -/
theorem C1_cex_update_body_has_no_id :
    ¬ ("id" ∈ Json.topKeys (updateRequest bW wordCex).body)
    ∧ Record.id wordCex = "rec123" ∧ ("rec123" : String) ≠ "" := by
  refine ⟨?_, rfl, ?_⟩ <;> decide

/-- C1 (amended): both write bodies omit the envelope `id` member —
serialization always skips it — and the record's current, non-empty
identifier instead reaches the server through the PATCH URL path, while
create's POST body likewise carries only `fields`. -/
theorem C1_bodies_omit_id {T : Type} [Serialize T] [Record T] (b : Base)
    (t : T) (h : Record.id t ≠ "") :
    Json.topKeys (createRequest b t).body = ["fields"]
    ∧ Json.topKeys (updateRequest b t).body = ["fields"]
    ∧ (updateRequest b t).url
        = URL ++ "/" ++ b.app_key ++ "/" ++ b.table ++ "/" ++ Record.id t
    ∧ Record.id t ≠ "" :=
  ⟨rfl, rfl, rfl, h⟩

theorem C1_bodies_omit_id_witness :
    Json.topKeys (createRequest bW wordCex).body = ["fields"]
    ∧ Json.topKeys (updateRequest bW wordCex).body = ["fields"]
    ∧ (updateRequest bW wordCex).url
        = URL ++ "/" ++ bW.app_key ++ "/" ++ bW.table ++ "/" ++ Record.id wordCex
    ∧ Record.id wordCex ≠ "" :=
  C1_bodies_omit_id bW wordCex (by decide)

/-- C8 is false as stated: a delivered non-2xx status outside the 4xx/5xx
range — here 300 — passes reqwest's `error_for_status`, so `create`
returns success for it. -/
theorem C8_cex_status_300_is_ok :
    (Base.create bW wordCex (HttpResponse.ok 300)).2 = Except.ok ()
    ∧ ¬ (200 ≤ 300 ∧ 300 ≤ 299) :=
  ⟨rfl, by decide⟩

/-- C8 (amended): each create/update call issues exactly one request (no
retry); a transport-level failure and any 4xx/5xx status are returned
synchronously as an error value carrying the failure, while any other
delivered status — in particular every 2xx — yields `Ok` with no further
payload. -/
theorem C8_write_errors_surfaced {T : Type} [Serialize T] [Record T]
    (b : Base) (t : T) (resp : HttpResponse) :
    (Base.create b t resp).1 = [createRequest b t]
    ∧ (Base.update b t resp).1 = [updateRequest b t]
    ∧ (resp = HttpResponse.transportErr →
        (Base.create b t resp).2 = Except.error ApiError.transport
        ∧ (Base.update b t resp).2 = Except.error ApiError.transport)
    ∧ (∀ s : Nat, resp = HttpResponse.ok s → 400 ≤ s → s ≤ 599 →
        (Base.create b t resp).2 = Except.error (ApiError.status s)
        ∧ (Base.update b t resp).2 = Except.error (ApiError.status s))
    ∧ (∀ s : Nat, resp = HttpResponse.ok s → ¬ (400 ≤ s ∧ s ≤ 599) →
        (Base.create b t resp).2 = Except.ok ()
        ∧ (Base.update b t resp).2 = Except.ok ()) := by
  refine ⟨rfl, rfl, ?_, ?_, ?_⟩
  · intro h; subst h
    exact ⟨rfl, rfl⟩
  · intro s h h4 h5; subst h
    constructor <;>
      simp [Base.create, Base.update, sendResult, error_for_status, h4, h5]
  · intro s h hno; subst h
    constructor <;>
      simp [Base.create, Base.update, sendResult, error_for_status, hno]

/-- C6: `pagNext` issues a request only when the window holds no
unconsumed item and an offset is pending; and on a fresh paginator whose
first page is non-empty, a single `next` call yields an item after
exactly one request — so consuming only the first item of a multi-page
result issues exactly one request, and since requests happen only inside
`pagNext`, ceasing to call it triggers none. -/
theorem C6_requests_only_when_needed {T : Type} [Record T] :
    (∀ p : Paginator T, p.window ≠ [] ∨ p.offset = none →
      (pagNext p).2.requests = p.requests)
    ∧ (∀ (b : Base) (qb : QueryBuilder) (pg : RecordPage T)
        (rest : List (Option (RecordPage T))), pg.records ≠ [] →
        (pagNext (mkPaginator b qb (some pg :: rest))).1.isSome = true
        ∧ (pagNext (mkPaginator b qb (some pg :: rest))).2.requests.length
            = 1) := by
  constructor
  · intro p h
    rcases h with h | h
    · rcases hw : p.window with _ | ⟨t, rest⟩
      · exact absurd hw h
      · simp [pagNext, hw]
    · rcases hw : p.window with _ | ⟨t, rest⟩ <;> simp [pagNext, hw, h]
  · intro b qb pg rest h
    rcases hrec : pg.records with _ | ⟨r, rs⟩
    · exact absurd hrec h
    · constructor <;> simp [pagNext, mkPaginator, hrec]

theorem C6_requests_only_when_needed_witness :
    (pagNext pW6).2.requests = pW6.requests
    ∧ (pagNext (mkPaginator bW bW.query [some pgOneW])).1.isSome = true
    ∧ (pagNext (mkPaginator bW bW.query [some pgOneW])).2.requests.length
        = 1 :=
  ⟨C6_requests_only_when_needed.1 pW6 (Or.inl (by decide)),
   (C6_requests_only_when_needed.2 bW bW.query pgOneW [] (by decide)).1,
   (C6_requests_only_when_needed.2 bW bW.query pgOneW [] (by decide)).2⟩

/-- Identifiers of a decoded window under a lawful record capability. -/
theorem map_id_decode {T : Type} [Record T]
    (hlaw : ∀ (t : T) (s : String), Record.id (Record.set_id t s) = s)
    (l : List (SRecord T)) :
    (l.map decodeRecord).map (fun t => Record.id t) = l.map SRecord.id := by
  induction l with
  | nil => rfl
  | cons r rs ih => simp [decodeRecord, hlaw, ih]

/-- C7: a successful fetch converts the page's envelopes in order — each
by deserializing `fields` and then calling `set_id` with that envelope's
`id` — so (for a capability whose `id` reports what `set_id` assigned)
the yielded-plus-buffered sequence's identifiers equal the envelopes'
ids, in the page's order. -/
theorem C7_decode_assigns_ids {T : Type} [Record T]
    (hlaw : ∀ (t : T) (s : String), Record.id (Record.set_id t s) = s)
    (p : Paginator T) (off : String) (pg : RecordPage T)
    (rest : List (Option (RecordPage T)))
    (hw : p.window = []) (ho : p.offset = some off)
    (hr : p.remote = some pg :: rest) :
    yieldedWindow (pagNext p) = pg.records.map decodeRecord
    ∧ (yieldedWindow (pagNext p)).map (fun t => Record.id t)
        = pg.records.map SRecord.id := by
  have hmain : yieldedWindow (pagNext p) = pg.records.map decodeRecord := by
    rcases hrec : pg.records with _ | ⟨r, rs⟩ <;>
      simp [pagNext, yieldedWindow, hw, ho, hr, hrec]
  exact ⟨hmain, by rw [hmain, map_id_decode hlaw]⟩

theorem C7_decode_assigns_ids_witness :
    yieldedWindow (pagNext pW7) = pgOneW.records.map decodeRecord
    ∧ (yieldedWindow (pagNext pW7)).map (fun t => Record.id t)
        = pgOneW.records.map SRecord.id :=
  C7_decode_assigns_ids (fun _ _ => rfl) pW7 "" pgOneW [] rfl rfl rfl

/-- C9: fetching a page with zero records but a non-empty offset makes
`pagNext` return `none` while the pending offset stays set, so `none` is
not a terminal signal: the following call issues another request and
yields an item when the next page has one. -/
theorem C9_none_not_terminal {T : Type} [Record T] (p : Paginator T)
    (off : String) (pg pg2 : RecordPage T)
    (rest : List (Option (RecordPage T)))
    (hw : p.window = []) (ho : p.offset = some off)
    (hr : p.remote = some pg :: some pg2 :: rest)
    (hempty : pg.records = []) (hoff : pg.offset ≠ "")
    (hpg2 : pg2.records ≠ []) :
    (pagNext p).1 = none
    ∧ (pagNext p).2.offset = some pg.offset
    ∧ (pagNext (pagNext p).2).1.isSome = true
    ∧ (pagNext (pagNext p).2).2.requests.length = p.requests.length + 2 := by
  have h2 : (pagNext p).2
      = ⟨p.base, some pg.offset, [], p.query_builder, some pg2 :: rest,
         p.requests ++ [buildRequest p.base p.query_builder off]⟩ := by
    simp [pagNext, hw, ho, hr, hempty, hoff]
  rcases hrec2 : pg2.records with _ | ⟨r2, rs2⟩
  · exact absurd hrec2 hpg2
  · refine ⟨?_, ?_, ?_, ?_⟩
    · simp [pagNext, hw, ho, hr, hempty]
    · rw [h2]
    · rw [h2]; simp [pagNext, hrec2]
    · rw [h2]; simp [pagNext, hrec2]

theorem C9_none_not_terminal_witness :
    (pagNext pW9).1 = none
    ∧ (pagNext pW9).2.offset = some pgEmptyO.offset
    ∧ (pagNext (pagNext pW9).2).1.isSome = true
    ∧ (pagNext (pagNext pW9).2).2.requests.length
        = pW9.requests.length + 2 :=
  C9_none_not_terminal pW9 "" pgEmptyO pgOneW [] rfl rfl rfl rfl
    (by decide) (by decide)

theorem C8_write_errors_surfaced_witness :
    (Base.create bW wordCex (HttpResponse.ok 404)).2
        = Except.error (ApiError.status 404)
    ∧ (Base.update bW wordCex HttpResponse.transportErr).2
        = Except.error ApiError.transport :=
  ⟨((C8_write_errors_surfaced bW wordCex (HttpResponse.ok 404)).2.2.2.1
      404 rfl (by decide) (by decide)).1,
   ((C8_write_errors_surfaced bW wordCex
      HttpResponse.transportErr).2.2.1 rfl).2⟩

/-- C4: with the finalized specification `view="V"`, `formula="F"`,
`sort=[("A",Descending),("B",Ascending)]`, every request a paginator run
issues carries exactly the query pairs `offset` (always present, first),
`view=V`, `filterByFormula=F`, then the sort pairs in builder insertion
index order with directions rendered as exactly "desc" and "asc". -/
theorem C4_request_query_parameters {T : Type} [Record T] (b : Base)
    (remote : List (Option (RecordPage T))) (fuel : Nat) (req : GetRequest)
    (h : req ∈ (runPag fuel (mkPaginator b qbVFAB remote)).2.requests) :
    ∃ o : String, req.query
      = [("offset", o), ("view", "V"), ("filterByFormula", "F"),
         ("sort[0][field]", "A"), ("sort[0][direction]", "desc"),
         ("sort[1][field]", "B"), ("sort[1][direction]", "asc")] := by
  obtain ⟨hb, hq, os, hreq⟩ := runPag_env fuel (mkPaginator b qbVFAB remote)
  rw [hreq] at h
  simp only [mkPaginator, List.nil_append] at h
  obtain ⟨o, ho, rfl⟩ := List.mem_map.mp h
  exact ⟨o, rfl⟩

theorem C4_request_query_parameters_witness :
    ∃ o : String, (buildRequest bW qbVFAB "").query
      = [("offset", o), ("view", "V"), ("filterByFormula", "F"),
         ("sort[0][field]", "A"), ("sort[0][direction]", "desc"),
         ("sort[1][field]", "B"), ("sort[1][direction]", "asc")] :=
  C4_request_query_parameters bW [some pgLastW] 1 (buildRequest bW qbVFAB "")
    (by decide)

/-- C2 is false as universally stated: when the first response carries no
records but the non-empty offset "o1", iteration terminates at once —
the consumer sees `none` — after a single request, even though the three
pages' records concatenate to one record and two more responses were
pending. -/
theorem C2_cex_empty_first_page :
    (runPag 4 (mkPaginator bW bW.query [some pgEmptyO, some pgW2, some pgW3])).1
        = []
    ∧ (runPag 4 (mkPaginator bW bW.query
        [some pgEmptyO, some pgW2, some pgW3])).2.requests.length = 1
    ∧ (pgEmptyO.records ++ pgW2.records ++ pgW3.records).length = 2
    ∧ pgEmptyO.offset ≠ "" ∧ pgW2.offset ≠ "" ∧ pgW3.offset = "" := by
  refine ⟨rfl, rfl, rfl, ?_, ?_, rfl⟩ <;> decide

/-- C2 (amended): for responses carrying offsets `o1`, `o2` and then the
empty offset, PROVIDED the first two pages each hold at least one
record, iteration yields exactly the concatenation of the three pages'
decoded records in order and then terminates in a state that absorbs
every further call, having issued exactly three GET requests whose
offset parameters are "", `o1`, `o2`; and in every fetch step the
pending offset becomes `none` exactly when the response offset is empty
and is replaced by it otherwise. -/
theorem C2_three_page_iteration {T : Type} [Record T] (b : Base)
    (qb : QueryBuilder) (p1 p2 p3 : RecordPage T)
    (h1o : p1.offset ≠ "") (h2o : p2.offset ≠ "") (h3o : p3.offset = "")
    (h1r : p1.records ≠ []) (h2r : p2.records ≠ []) :
    runPag (p1.records.length + p2.records.length + p3.records.length + 1)
        (mkPaginator b qb [some p1, some p2, some p3])
      = ((p1.records ++ p2.records ++ p3.records).map decodeRecord,
         ⟨b, none, [], qb, [],
          [buildRequest b qb "", buildRequest b qb p1.offset,
           buildRequest b qb p2.offset]⟩)
    ∧ pagNext (⟨b, none, [], qb, [],
          [buildRequest b qb "", buildRequest b qb p1.offset,
           buildRequest b qb p2.offset]⟩ : Paginator T)
      = (none,
         ⟨b, none, [], qb, [],
          [buildRequest b qb "", buildRequest b qb p1.offset,
           buildRequest b qb p2.offset]⟩)
    ∧ (∀ (p : Paginator T) (off : String) (pg : RecordPage T)
        (rest : List (Option (RecordPage T))),
        p.window = [] → p.offset = some off → p.remote = some pg :: rest →
        (pagNext p).2.offset
          = (if pg.offset = "" then none else some pg.offset)) := by
  refine ⟨?_, rfl, ?_⟩
  · rcases p1 with ⟨recs1, off1⟩
    rcases p2 with ⟨recs2, off2⟩
    rcases p3 with ⟨recs3, off3⟩
    dsimp only at h1o h2o h3o h1r h2r ⊢
    subst h3o
    rcases recs1 with _ | ⟨r1, rs1⟩
    · exact absurd rfl h1r
    rcases recs2 with _ | ⟨r2, rs2⟩
    · exact absurd rfl h2r
    dsimp only [mkPaginator]
    rw [show (r1 :: rs1 : List (SRecord T)).length
          + (r2 :: rs2 : List (SRecord T)).length + recs3.length + 1
        = (r1 :: rs1 : List (SRecord T)).length
          + (((r2 :: rs2 : List (SRecord T)).length + recs3.length) + 1)
        from by omega]
    rw [runPag_page r1 rs1 off1 [some ⟨r2 :: rs2, off2⟩, some ⟨recs3, ""⟩]
        b "" qb [] ((r2 :: rs2 : List (SRecord T)).length + recs3.length)]
    rw [if_neg h1o]
    simp only [List.nil_append]
    rw [show ((r2 :: rs2 : List (SRecord T)).length + recs3.length) + 1
        = (r2 :: rs2 : List (SRecord T)).length + (recs3.length + 1)
        from by omega]
    rw [runPag_page r2 rs2 off2 [some ⟨recs3, ""⟩] b off1 qb
        [buildRequest b qb ""] recs3.length]
    rw [if_neg h2o]
    rw [runPag_last_page recs3 b off2 qb []
        ([buildRequest b qb ""] ++ [buildRequest b qb off1])]
    simp
  · intro p off pg rest hw ho hr
    rcases pg with ⟨precs, poff⟩
    rcases precs with _ | ⟨r, rs⟩ <;> simp [pagNext, hw, ho, hr]

theorem C2_three_page_iteration_witness :
    runPag 4 (mkPaginator bW bW.query [some pgOneW, some pgW2, some pgW3])
      = ((pgOneW.records ++ pgW2.records ++ pgW3.records).map decodeRecord,
         ⟨bW, none, [], bW.query, [],
          [buildRequest bW bW.query "", buildRequest bW bW.query pgOneW.offset,
           buildRequest bW bW.query pgW2.offset]⟩) :=
  (C2_three_page_iteration bW bW.query pgOneW pgW2 pgW3
    (by decide) (by decide) rfl (by decide) (by decide)).1

end Airtable
